import Mathlib

/-!
A shallow embedding of the label-text, title and query-suggestion modules of
the dom-testing-library query engine, together with theorems settling the
specified properties of those modules.

The document tree, attribute access and selector primitives are the external
tree representation the spec assumes the platform provides; they are embedded
as plain functional definitions over an inductive tree type.
-/

/-- A document node: either an element (tag, attribute list, children, and a
node identity used for the identity-keyed set semantics of the host language)
or a text node. -/
inductive Node where
  | elem (tag : String) (attrs : List (String × String)) (children : List Node) (nid : Nat)
  | text (s : String)
deriving Repr

mutual
/-- Structural equality test for nodes. -/
def Node.beqFn : Node → Node → Bool
  | .text s, .text t => decide (s = t)
  | .elem t1 a1 c1 i1, .elem t2 a2 c2 i2 =>
    decide (t1 = t2) && decide (a1 = a2) && Node.beqList c1 c2 && decide (i1 = i2)
  | _, _ => false
/-- Structural equality test for node lists. -/
def Node.beqList : List Node → List Node → Bool
  | [], [] => true
  | x :: xs, y :: ys => Node.beqFn x y && Node.beqList xs ys
  | _, _ => false
end

theorem Node.beqAux :
    ∀ k : Nat,
      (∀ a : Node, sizeOf a ≤ k → ∀ b, (Node.beqFn a b = true ↔ a = b)) ∧
      (∀ l : List Node, sizeOf l ≤ k → ∀ m, (Node.beqList l m = true ↔ l = m)) := by
  intro k
  induction k with
  | zero =>
    constructor
    · intro a ha
      exfalso
      cases a <;> simp_arith at ha
    · intro l hl
      exfalso
      cases l <;> simp_arith at hl
  | succ k ih =>
    constructor
    · intro a ha b
      match a, b with
      | .text s, .text t => simp [Node.beqFn]
      | .text s, .elem t2 a2 c2 i2 => simp [Node.beqFn]
      | .elem t1 a1 c1 i1, .text t => simp [Node.beqFn]
      | .elem t1 a1 c1 i1, .elem t2 a2 c2 i2 =>
        have hc : sizeOf c1 ≤ k := by simp_arith at ha; omega
        simp [Node.beqFn, Bool.and_eq_true, decide_eq_true_eq, ih.2 c1 hc c2]
        tauto
    · intro l hl m
      match l, m with
      | [], [] => simp [Node.beqList]
      | [], y :: ys => simp [Node.beqList]
      | x :: xs, [] => simp [Node.beqList]
      | x :: xs, y :: ys =>
        have hx : sizeOf x ≤ k := by simp_arith at hl; omega
        have hxs : sizeOf xs ≤ k := by simp_arith at hl; omega
        simp [Node.beqList, Bool.and_eq_true, ih.1 x hx y, ih.2 xs hxs ys]

theorem Node.beqFn_iff (a b : Node) : Node.beqFn a b = true ↔ a = b :=
  (Node.beqAux (sizeOf a)).1 a (Nat.le_refl _) b

instance : DecidableEq Node := fun a b =>
  decidable_of_iff (Node.beqFn a b = true) (Node.beqFn_iff a b)

/-- The tag name of an element node. -/
def tagOf : Node → Option String
  | .elem t _ _ _ => some t
  | .text _ => none

/-- getAttribute: the value of the named attribute, if present. -/
def attr (n : Node) (a : String) : Option String :=
  match n with
  | .elem _ attrs _ _ => attrs.lookup a
  | .text _ => none

/-- The child node list of a node. -/
def childrenOf : Node → List Node
  | .elem _ _ c _ => c
  | .text _ => []

/-- Whether the node is an element node. -/
def isElem : Node → Bool
  | .elem _ _ _ _ => true
  | .text _ => false

mutual
/-- textContent: the concatenation of all text descendants, in document order. -/
def textContent : Node → String
  | .text s => s
  | .elem _ _ c _ => textContentList c
/-- textContent of a list of sibling nodes. -/
def textContentList : List Node → String
  | [] => ""
  | n :: ns => textContent n ++ textContentList ns
end

/-- Modelled from the spec: getNodeText (matches module, not included under
src) — the "own text" of a node, i.e. the concatenation of its immediate
text children. -/
def getNodeText (n : Node) : String :=
  String.join ((childrenOf n).filterMap fun c =>
    match c with
    | .text s => some s
    | .elem _ _ _ _ => none)

mutual
/-- Pre-order list of the element descendants of a sibling list, each paired
with the tag of its parent element (the parent tag is needed for the one
child-combinator selector the sources use, svg > title). -/
def epList : String → List Node → List (String × Node)
  | _, [] => []
  | pt, n :: ns => ep pt n ++ epList pt ns
/-- Pre-order element descendants of one node (the node itself included when
it is an element), paired with their parent tag. -/
def ep : String → Node → List (String × Node)
  | _, .text _ => []
  | pt, .elem t a c i => (pt, .elem t a c i) :: epList t c
end

/-- All element descendants of a container, paired with their parent tag. -/
def pairsUnder : Node → List (String × Node)
  | .elem t _ ch _ => epList t ch
  | .text _ => []

/-- querySelectorAll("*") scope: the element descendants of a container in
document pre-order (the traversal order of the platform). -/
def elementsUnder (c : Node) : List Node :=
  (pairsUnder c).map Prod.snd

/-- Identity-keyed set construction of the host language (Array.from over a
Set built from a list): keeps the first occurrence of each member, in
insertion order. -/
def jsSetDedup : List Node → List Node
  | [] => []
  | x :: xs => x :: (jsSetDedup xs).filter fun y => decide (y ≠ x)

theorem mem_jsSetDedup {a : Node} : ∀ {l : List Node}, a ∈ jsSetDedup l ↔ a ∈ l
  | [] => by simp [jsSetDedup]
  | x :: xs => by
    rw [jsSetDedup]
    by_cases hax : a = x
    · subst hax; simp
    · simp only [List.mem_cons, hax, false_or]
      rw [List.mem_filter]
      simp [hax, mem_jsSetDedup (l := xs)]

theorem nodup_jsSetDedup : ∀ (l : List Node), (jsSetDedup l).Nodup
  | [] => by simp [jsSetDedup]
  | x :: xs => by
    rw [jsSetDedup]
    refine List.nodup_cons.mpr ⟨?_, (nodup_jsSetDedup xs).filter _⟩
    intro hmem
    rw [List.mem_filter] at hmem
    simp at hmem

/-- Whether pat is a leading piece of s (character lists). -/
def leadsWith : List Char → List Char → Bool
  | [], _ => true
  | _ :: _, [] => false
  | p :: ps, c :: cs => decide (p = c) && leadsWith ps cs

/-- Locate the first occurrence of pat in s, returning the characters before
it and the characters after it. -/
def findSplit (pat : List Char) : List Char → Option (List Char × List Char)
  | [] => if pat.isEmpty then some ([], []) else none
  | c :: cs =>
    if leadsWith pat (c :: cs) then some ([], (c :: cs).drop pat.length)
    else (findSplit pat cs).map fun p => (c :: p.1, p.2)

/-- JavaScript String.replace with a plain-string first argument and empty
replacement: removes the first occurrence of pat from s (no change when pat
does not occur; replacing the empty string is the identity). -/
def replaceFirst (s pat : String) : String :=
  if pat = "" then s
  else
    match findSplit pat.data s.data with
    | some p => String.mk (p.1 ++ p.2)
    | none => s

/-- Collapse runs of whitespace to a single space (the regex replace of the
default normalizer). The Bool argument records whether the previous character
was whitespace. -/
def collapseAux : Bool → List Char → List Char
  | _, [] => []
  | prevWs, c :: cs =>
    if c.isWhitespace then
      (if prevWs then [] else [' ']) ++ collapseAux true cs
    else c :: collapseAux false cs

/-- Collapse every run of whitespace in a string to a single space. -/
def collapseWs (s : String) : String :=
  String.mk (collapseAux false s.data)

/-- Remove leading and trailing whitespace. -/
def trimWs (s : String) : String :=
  String.mk (((s.data.dropWhile Char.isWhitespace).reverse.dropWhile Char.isWhitespace).reverse)

/-- Lower-case every character of a string. -/
def toLowerStr (s : String) : String :=
  String.mk (s.data.map Char.toLower)

/-- Options controlling text normalization, as destructured by makeNormalizer:
optional collapse/trim overrides and an optional caller-supplied normalizer. -/
structure NormalizerOptions where
  collapseWhitespace : Option Bool := none
  trim : Option Bool := none
  normalizer : Option (String → String) := none

/-- Modelled from the spec: makeNormalizer (matches module, not included under
src). A caller-supplied normalizer is used as given; otherwise the default
normalization trims unless trim = false and collapses whitespace runs unless
collapseWhitespace = false. -/
def makeNormalizer (o : NormalizerOptions) : String → String :=
  match o.normalizer with
  | some f => f
  | none => fun s =>
    let s1 := if o.trim.getD true then trimWs s else s
    if o.collapseWhitespace.getD true then collapseWs s1 else s1

/-- The default normalizer (trim and collapse whitespace). -/
def defaultNormalize : String → String :=
  makeNormalizer {}

/-- A matcher pattern: a literal string or a predicate over the normalized
text and the node. -/
inductive Matcher where
  | str (s : String)
  | pred (f : String → Node → Bool)

/-- Whether sub occurs as a substring of s. -/
def containsSub (s sub : String) : Bool :=
  decide (sub = "") || (findSplit sub.data s.data).isSome

/-- Modelled from the spec: the exact matcher (the source calls it matches, a
reserved word here; the matches module is not included under src). An absent
candidate never matches; a string pattern requires normalized equality,
normalization applied identically to candidate and pattern; a predicate
pattern is applied to the normalized text and the node. -/
def matchesExact (text : Option String) (node : Node) (m : Matcher) (norm : String → String) : Bool :=
  match text with
  | none => false
  | some t =>
    match m with
    | .str s => decide (norm t = norm s)
    | .pred f => f (norm t) node

/-- Modelled from the spec: the fuzzy matcher (matches module, not included
under src). A string pattern requires case-insensitive substring containment
after normalization; predicate patterns behave as in the exact matcher. -/
def fuzzyMatches (text : Option String) (node : Node) (m : Matcher) (norm : String → String) : Bool :=
  match text with
  | none => false
  | some t =>
    match m with
    | .str s => containsSub (toLowerStr (norm t)) (toLowerStr (norm s))
    | .pred f => f (norm t) node

/-- Matching options shared by every query family. -/
structure MatcherOptions where
  exact : Bool := true
  collapseWhitespace : Option Bool := none
  trim : Option Bool := none
  normalizer : Option (String → String) := none

/-- Matching options for label queries: the base options plus an optional
node-level selector constraint; the default selector "*" matches anything. -/
structure SelectorMatcherOptions extends MatcherOptions where
  selector : Option (Node → Bool) := none

/-- The node-level selector test of the options: the supplied selector, or the
default "*" which matches every node. -/
def selOf (o : SelectorMatcherOptions) : Node → Bool :=
  o.selector.getD fun _ => true

/-- The matcher chosen by the exact flag. -/
def matcherOf (exact : Bool) : Option String → Node → Matcher → (String → String) → Bool :=
  if exact then matchesExact else fuzzyMatches

/-- The normalizer built from a MatcherOptions record. -/
def normOf (o : MatcherOptions) : String → String :=
  makeNormalizer ⟨o.collapseWhitespace, o.trim, o.normalizer⟩

/-- Split a character list at whitespace characters; cur accumulates the
current token reversed. -/
def splitWsAux (cur : List Char) : List Char → List (List Char)
  | [] => [cur.reverse]
  | c :: cs =>
    if c.isWhitespace then cur.reverse :: splitWsAux [] cs
    else splitWsAux (c :: cur) cs

/-- The whitespace-separated token list of an attribute value, as used by the
whole-token attribute selector the sources write with a tilde. -/
def splitWsTokens (v : String) : List String :=
  ((splitWsAux [] v.data).map String.mk).filter fun t => decide (t ≠ "")

/-- querySelectorAll with the whole-token aria-labelledby attribute selector:
the element descendants of c whose aria-labelledby token list contains i as a
whole token. -/
def qsaAriaLabelledby (c : Node) (i : String) : List Node :=
  (elementsUnder c).filter fun n =>
    match attr n "aria-labelledby" with
    | some v => (splitWsTokens v).contains i
    | none => false

/-- container.querySelector with an exact id attribute selector: the first
element descendant of c whose id attribute equals v, if any. -/
def findElemById (c : Node) (v : String) : Option Node :=
  ((elementsUnder c).filter fun n => decide (attr n "id" = some v)).head?

/-- The element descendants of c with a given tag name. -/
def elementsByTag (c : Node) (t : String) : List Node :=
  (elementsUnder c).filter fun n => decide (tagOf n = some t)

/-- Modelled from the spec: queryAllByAttribute (query helpers module, not
included under src) — every element under the container carrying the named
attribute whose value matches the pattern under the options' matcher and
normalizer. -/
def queryAllByAttribute (a : String) (c : Node) (m : Matcher) (o : MatcherOptions) : List Node :=
  ((elementsUnder c).filter fun n => (attr n a).isSome).filter fun n =>
    matcherOf o.exact (attr n a) n m (normOf o)

/-- Modelled from the spec: queryAllByText (text query module, not included
under src) — every element under the container whose own text matches the
pattern under the options' matcher and normalizer. -/
def queryAllByText (c : Node) (m : Matcher) (o : MatcherOptions) : List Node :=
  (elementsUnder c).filter fun n =>
    matcherOf o.exact (some (getNodeText n)) n m (normOf o)

/-- The form-control tag names of the nested-control selector in the label
query (also the labelable element kinds of native label association). -/
def formControlTags : List String :=
  ["button", "input", "meter", "output", "progress", "select", "textarea"]

/-- Whether a node is a labelable form control. -/
def isLabelable (n : Node) : Bool :=
  match tagOf n with
  | some t => formControlTags.contains t
  | none => false

/-- Modelled from the spec: implicit native control ownership (the label
element's control property, provided by the platform): the element referenced
by the label's for attribute when that element is labelable, otherwise the
first labelable descendant of the label when no for attribute is present. -/
def labelControl (root : Node) (label : Node) : Option Node :=
  match attr label "for" with
  | some f => (findElemById root f).bind fun n => if isLabelable n then some n else none
  | none => ((elementsUnder label).filter isLabelable).head?

/-- Modelled from the spec: the labels list of a labelable element (platform
facet): the label elements of the document whose control is this element, in
document order. -/
def labelsOf (root : Node) (e : Node) : List Node :=
  (elementsUnder root).filter fun l =>
    decide (tagOf l = some "label") && decide (labelControl root l = some e)

/-- The text a label is matched against: its textContent with the value of
each nested textarea and the textContent of each nested select removed (first
occurrence each, in document order), exactly as the source computes it. -/
def labelTextToMatch (label : Node) : String :=
  let t0 := textContent label
  let t1 := (elementsByTag label "textarea").foldl (fun t ta => replaceFirst t (textContent ta)) t0
  (elementsByTag label "select").foldl (fun t se => replaceFirst t (textContent se)) t1

/-- queryAllLabelsByText: the label elements under the container whose
stripped text matches the pattern. -/
def queryAllLabelsByText (c : Node) (m : Matcher) (o : MatcherOptions) : List Node :=
  (elementsByTag c "label").filter fun label =>
    matcherOf o.exact (some (labelTextToMatch label)) label m (normOf o)

/-- The matched labels computed inside queryAllByLabelText: the labels are
matched with the caller's exact flag and the already-built normalizer. -/
def matchedLabels (c : Node) (m : Matcher) (o : SelectorMatcherOptions) : List Node :=
  queryAllLabelsByText c m ⟨o.exact, none, none, some (normOf o.toMatcherOptions)⟩

/-- The candidate controlled elements one matched label contributes, in the
order the source pushes them: the implicit control, the for/id reference
(possibly unresolved, hence an Option), the elements whose aria-labelledby
token list holds the label's id, and the first nested form control satisfying
the caller's selector. -/
def elementsForLabel (c : Node) (sel : Node → Bool) (label : Node) : List (Option Node) :=
  (match labelControl c label with
    | some ctl => [some ctl]
    | none => [])
  ++ (match attr label "for" with
    | some f => if f = "" then [] else [findElemById c f]
    | none => [])
  ++ (match attr label "id" with
    | some i => if i = "" then [] else (qsaAriaLabelledby c i).map some
    | none => [])
  ++ (if (childrenOf label).isEmpty then []
    else
      match ((elementsUnder label).filter fun n => isLabelable n && sel n).head? with
      | some fc => [some fc]
      | none => [])

/-- The labelledElements list of queryAllByLabelText: the labels' resolved
elements with unresolved references dropped, followed by the aria-label
attribute matches (queried, as in the source, with only the exact flag). -/
def labelledElements (c : Node) (m : Matcher) (o : SelectorMatcherOptions) : List Node :=
  ((matchedLabels c m o).flatMap (elementsForLabel c (selOf o))).filterMap id
    ++ queryAllByAttribute "aria-label" c m ⟨o.exact, none, none, none⟩

/-- The ariaLabelledElements list of queryAllByLabelText: for every element
whose own text matches and that carries a non-empty id, the elements whose
aria-labelledby token list holds that id. -/
def ariaLabelledElements (c : Node) (m : Matcher) (o : SelectorMatcherOptions) : List Node :=
  (queryAllByText c m ⟨o.exact, none, none, some (normOf o.toMatcherOptions)⟩).flatMap fun lbl =>
    match attr lbl "id" with
    | some i => if i = "" then [] else qsaAriaLabelledby c i
    | none => []

/-- queryAllByLabelText: the union of the label-resolved and
aria-labelledby-resolved elements, deduplicated keeping first occurrences,
filtered by the caller's selector. -/
def queryAllByLabelText (c : Node) (m : Matcher) (o : SelectorMatcherOptions) : List Node :=
  (jsSetDedup (labelledElements c m o ++ ariaLabelledElements c m o)).filter (selOf o)

/-- The string interpolation of a pattern in the error messages. -/
def matcherText : Matcher → String
  | .str s => s
  | .pred _ => "function"

/-- The message raised when a matching label exists but no associated form
control was resolved. -/
def msgNoControl (t : String) : String :=
  "Found a label with the text of: " ++ t ++
    ", however no form control was found associated to that label. Make sure you are using the \"for\" attribute or \"aria-labelledby\" attribute correctly."

/-- The message raised when no matching label exists at all. -/
def msgNoLabel (t : String) : String :=
  "Unable to find a label with the text of: " ++ t

/-- getAllByLabelText: returns the resolved elements, or raises (through the
configured error reporter, modelled as the error message) the
check-your-association message when a label matched but nothing resolved, and
the generic not-found message otherwise. -/
def getAllByLabelText (c : Node) (m : Matcher) (o : SelectorMatcherOptions) :
    Except String (List Node) :=
  let els := queryAllByLabelText c m o
  if els.isEmpty then
    if (queryAllLabelsByText c m o.toMatcherOptions).isEmpty then
      .error (msgNoLabel (matcherText m))
    else
      .error (msgNoControl (matcherText m))
  else
    .ok els

/-- querySelectorAll with the selector of the title query: elements carrying a
title attribute, together with title elements whose parent is an svg. -/
def qsaTitleSel (c : Node) : List Node :=
  ((pairsUnder c).filter fun p =>
    (attr p.2 "title").isSome || (decide (tagOf p.2 = some "title") && decide (p.1 = "svg"))).map
    Prod.snd

/-- queryAllByTitle: the selected nodes whose title attribute or own text
matches the pattern. -/
def queryAllByTitle (c : Node) (m : Matcher) (o : MatcherOptions) : List Node :=
  (qsaTitleSel c).filter fun node =>
    matcherOf o.exact (attr node "title") node m (normOf o) ||
      matcherOf o.exact (some (getNodeText node)) node m (normOf o)

/-- JavaScript truthiness of a nullable string: present and non-empty. -/
def truthy : Option String → Bool
  | some s => decide (s ≠ "")
  | none => false

/-- getLabelTextFor: the first native label of the element with non-empty
normalized text; when none qualifies, the element whose id equals the entire
aria-labelledby attribute value (looked up in the whole document, the value
used as one single id); the textContent of the found label, if any. -/
def getLabelTextFor (root : Node) (element : Node) : Option String :=
  let nativeLabel : Option Node :=
    if isLabelable element then
      (labelsOf root element).find? fun l => decide (defaultNormalize (textContent l) ≠ "")
    else none
  let label : Option Node :=
    match nativeLabel with
    | some l => some l
    | none =>
      match attr element "aria-labelledby" with
      | some alb => if alb = "" then none else findElemById root alb
      | none => none
  label.map textContent

/-- A produced suggestion: the query family name, the content to search for,
the calling variant, and (for role suggestions) the accessible name. -/
structure Suggestion where
  queryName : String
  content : String
  variant : String
  name : Option String
deriving DecidableEq, Repr

/-- makeSuggestion: packages a suggestion record. -/
def makeSuggestion (queryName content variant : String) (name : Option String) : Suggestion :=
  ⟨queryName, content, variant, name⟩

/-- Modelled from the spec: the current form value facet of a node (platform
provided): the live text of a textarea, otherwise the value attribute. -/
def nodeValue (n : Node) : Option String :=
  if tagOf n = some "textarea" then some (textContent n) else attr n "value"

/-- The external collaborators of the suggestion engine: the document root
(for label lookup), the role lookup and the accessible-name computation, kept
opaque as the spec directs. -/
structure SuggestEnv where
  root : Node
  getRoles : Node → List String
  computeAccessibleName : Node → String

/-- getSuggestedQuery: the first applicable suggestion in the fixed priority
order role, label text, placeholder, own text, value, alt text, title; none
when none applies. -/
def getSuggestedQuery (env : SuggestEnv) (element : Node) (variant : String) : Option Suggestion :=
  match env.getRoles element with
  | role :: _ =>
    some (makeSuggestion "Role" role variant (some (env.computeAccessibleName element)))
  | [] =>
    if truthy (getLabelTextFor env.root element) then
      some (makeSuggestion "LabelText" ((getLabelTextFor env.root element).getD "") variant none)
    else if truthy (attr element "placeholder") then
      some (makeSuggestion "PlaceholderText" ((attr element "placeholder").getD "") variant none)
    else if defaultNormalize (textContent element) ≠ "" then
      some (makeSuggestion "Text" (defaultNormalize (textContent element)) variant none)
    else if truthy (nodeValue element) then
      some (makeSuggestion "DisplayValue" (defaultNormalize ((nodeValue element).getD "")) variant none)
    else if truthy (attr element "alt") then
      some (makeSuggestion "AltText" ((attr element "alt").getD "") variant none)
    else if truthy (attr element "title") then
      some (makeSuggestion "Title" ((attr element "title").getD "") variant none)
    else none

/-- Applicability of the k-th candidate (0-based) of the suggestion priority
order for an element: role, label text, placeholder, own text, value, alt
text, title. -/
def sgApplicable (env : SuggestEnv) (e : Node) (k : Nat) : Bool :=
  match k with
  | 0 => !(env.getRoles e).isEmpty
  | 1 => truthy (getLabelTextFor env.root e)
  | 2 => truthy (attr e "placeholder")
  | 3 => decide (defaultNormalize (textContent e) ≠ "")
  | 4 => truthy (nodeValue e)
  | 5 => truthy (attr e "alt")
  | 6 => truthy (attr e "title")
  | _ => false

/-- The query family name of the k-th candidate of the priority order. -/
def sgQueryName : Nat → String
  | 0 => "Role"
  | 1 => "LabelText"
  | 2 => "PlaceholderText"
  | 3 => "Text"
  | 4 => "DisplayValue"
  | 5 => "AltText"
  | 6 => "Title"
  | _ => ""

theorem forallLt7 (f : Nat → Bool) (h0 : f 0 = false) (h1 : f 1 = false) (h2 : f 2 = false)
    (h3 : f 3 = false) (h4 : f 4 = false) (h5 : f 5 = false) (h6 : f 6 = false) :
    ∀ k, k < 7 → f k = false := by
  intro k hk
  interval_cases k <;> assumption

/-- C1: getSuggestedQuery evaluates the seven candidate suggestions in the
fixed total priority order role, label text, placeholder, own text, value,
alt text, title; it returns the first applicable one (the suggestion produced
carries the query family name of the least applicable index, all smaller
indices being inapplicable), and it returns none exactly when none of the
seven candidates applies. -/
theorem getSuggestedQuery_priority_order (env : SuggestEnv) (e : Node) (v : String) :
    (getSuggestedQuery env e v = none ↔ ∀ k, k < 7 → sgApplicable env e k = false) ∧
    (∀ s, getSuggestedQuery env e v = some s →
      ∃ k, k < 7 ∧ s.queryName = sgQueryName k ∧ sgApplicable env e k = true ∧
        ∀ j, j < k → sgApplicable env e j = false) := by
  cases hr : env.getRoles e with
  | cons r rs =>
    constructor
    · constructor
      · intro h
        simp [getSuggestedQuery, hr] at h
      · intro h
        have h0 := h 0 (by omega)
        simp [sgApplicable, hr] at h0
    · intro s hs
      simp only [getSuggestedQuery, hr] at hs
      injection hs with hs
      refine ⟨0, by omega, ?_, ?_, ?_⟩
      · rw [← hs]; rfl
      · simp [sgApplicable, hr]
      · intro j hj; omega
  | nil =>
    have a0 : sgApplicable env e 0 = false := by simp [sgApplicable, hr]
    simp only [getSuggestedQuery, hr]
    split_ifs with h1 h2 h3 h4 h5 h6
    · constructor
      · constructor
        · intro h; simp at h
        · intro h
          have := h 1 (by omega)
          simp [sgApplicable, h1] at this
      · intro s hs
        injection hs with hs
        refine ⟨1, by omega, ?_, by simpa [sgApplicable] using h1, ?_⟩
        · rw [← hs]; rfl
        · intro j hj
          interval_cases j
          exact a0
    · rw [Bool.not_eq_true] at h1
      constructor
      · constructor
        · intro h; simp at h
        · intro h
          have := h 2 (by omega)
          simp [sgApplicable, h2] at this
      · intro s hs
        injection hs with hs
        refine ⟨2, by omega, ?_, by simpa [sgApplicable] using h2, ?_⟩
        · rw [← hs]; rfl
        · intro j hj
          interval_cases j
          · exact a0
          · simpa [sgApplicable] using h1
    · rw [Bool.not_eq_true] at h1 h2
      constructor
      · constructor
        · intro h; simp at h
        · intro h
          have := h 3 (by omega)
          simp [sgApplicable, h3] at this
      · intro s hs
        injection hs with hs
        refine ⟨3, by omega, ?_, by simpa [sgApplicable] using h3, ?_⟩
        · rw [← hs]; rfl
        · intro j hj
          interval_cases j
          · exact a0
          · simpa [sgApplicable] using h1
          · simpa [sgApplicable] using h2
    · rw [Bool.not_eq_true] at h1 h2
      rw [Decidable.not_not] at h3
      constructor
      · constructor
        · intro h; simp at h
        · intro h
          have := h 4 (by omega)
          simp [sgApplicable, h4] at this
      · intro s hs
        injection hs with hs
        refine ⟨4, by omega, ?_, by simpa [sgApplicable] using h4, ?_⟩
        · rw [← hs]; rfl
        · intro j hj
          interval_cases j
          · exact a0
          · simpa [sgApplicable] using h1
          · simpa [sgApplicable] using h2
          · simpa [sgApplicable] using h3
    · rw [Bool.not_eq_true] at h1 h2 h4
      rw [Decidable.not_not] at h3
      constructor
      · constructor
        · intro h; simp at h
        · intro h
          have := h 5 (by omega)
          simp [sgApplicable, h5] at this
      · intro s hs
        injection hs with hs
        refine ⟨5, by omega, ?_, by simpa [sgApplicable] using h5, ?_⟩
        · rw [← hs]; rfl
        · intro j hj
          interval_cases j
          · exact a0
          · simpa [sgApplicable] using h1
          · simpa [sgApplicable] using h2
          · simpa [sgApplicable] using h3
          · simpa [sgApplicable] using h4
    · rw [Bool.not_eq_true] at h1 h2 h4 h5
      rw [Decidable.not_not] at h3
      constructor
      · constructor
        · intro h; simp at h
        · intro h
          have := h 6 (by omega)
          simp [sgApplicable, h6] at this
      · intro s hs
        injection hs with hs
        refine ⟨6, by omega, ?_, by simpa [sgApplicable] using h6, ?_⟩
        · rw [← hs]; rfl
        · intro j hj
          interval_cases j
          · exact a0
          · simpa [sgApplicable] using h1
          · simpa [sgApplicable] using h2
          · simpa [sgApplicable] using h3
          · simpa [sgApplicable] using h4
          · simpa [sgApplicable] using h5
    · rw [Bool.not_eq_true] at h1 h2 h4 h5 h6
      rw [Decidable.not_not] at h3
      constructor
      · refine iff_of_true rfl (forallLt7 _ a0 ?_ ?_ ?_ ?_ ?_ ?_)
        · simpa [sgApplicable] using h1
        · simpa [sgApplicable] using h2
        · simpa [sgApplicable] using h3
        · simpa [sgApplicable] using h4
        · simpa [sgApplicable] using h5
        · simpa [sgApplicable] using h6
      · intro s hs
        cases hs

/-- Witness environment for the suggestion-engine theorems: no roles, empty
accessible names. -/
def envW1 : SuggestEnv :=
  ⟨.elem "html" [] [] 100, fun _ => [], fun _ => ""⟩

/-- Witness element carrying only a title attribute. -/
def eW1 : Node := .elem "div" [("title", "T")] [] 1

theorem getSuggestedQuery_priority_order_witness :
    ∃ k, k < 7 ∧
      (Suggestion.queryName ⟨"Title", "T", "get", none⟩) = sgQueryName k ∧
      sgApplicable envW1 eW1 k = true ∧ ∀ j, j < k → sgApplicable envW1 eW1 j = false :=
  (getSuggestedQuery_priority_order envW1 eW1 "get").2 ⟨"Title", "T", "get", none⟩ (by decide)

/-- C6: getSuggestedQuery never raises on its own account: when no candidate
applies it evaluates to none rather than to an error, and in particular the
label-text lookup path of an element carrying an aria-labelledby attribute
whose reference does not resolve degrades silently to none. -/
theorem getSuggestedQuery_silent_degrade (env : SuggestEnv) (e : Node) (v : String) :
    ((∀ k, k < 7 → sgApplicable env e k = false) → getSuggestedQuery env e v = none) ∧
    (∀ alb, attr e "aria-labelledby" = some alb → env.getRoles e = [] →
      isLabelable e = false → findElemById env.root alb = none →
      truthy (attr e "placeholder") = false → defaultNormalize (textContent e) = "" →
      truthy (nodeValue e) = false → truthy (attr e "alt") = false →
      truthy (attr e "title") = false → getSuggestedQuery env e v = none) := by
  constructor
  · intro h
    cases hr : env.getRoles e with
    | cons r rs =>
      have h0 := h 0 (by omega)
      simp [sgApplicable, hr] at h0
    | nil =>
      have a1 := h 1 (by omega)
      have a2 := h 2 (by omega)
      have a3 := h 3 (by omega)
      have a4 := h 4 (by omega)
      have a5 := h 5 (by omega)
      have a6 := h 6 (by omega)
      simp only [sgApplicable] at a1 a2 a3 a4 a5 a6
      rw [decide_eq_false_iff_not, Decidable.not_not] at a3
      simp [getSuggestedQuery, hr, a1, a2, a3, a4, a5, a6]
  · intro alb halb hr hlab hfind hp ht hv hal hti
    have hglt : getLabelTextFor env.root e = none := by
      by_cases halb0 : alb = "" <;>
        simp [getLabelTextFor, hlab, halb, halb0, hfind]
    have t0 : truthy (getLabelTextFor env.root e) = false := by rw [hglt]; rfl
    simp [getSuggestedQuery, hr, t0, hp, ht, hv, hal, hti]

/-- Witness environment for the silent-degradation theorem: a document with
two labelled spans and no roles. -/
def rootW6 : Node :=
  .elem "html" [] [.elem "span" [("id", "x")] [] 1, .elem "span" [("id", "y")] [] 2] 0

/-- Witness environment record for the silent-degradation theorem. -/
def envW6 : SuggestEnv := ⟨rootW6, fun _ => [], fun _ => ""⟩

/-- Witness element: nothing suggestable except a two-token aria-labelledby
attribute, which the whole-value lookup cannot resolve. -/
def eW6 : Node := .elem "div" [("aria-labelledby", "x y")] [] 3

theorem getSuggestedQuery_silent_degrade_witness :
    getSuggestedQuery envW6 eW6 "get" = none :=
  (getSuggestedQuery_silent_degrade envW6 eW6 "get").2 "x y" (by decide) rfl (by decide)
    (by decide) (by decide) (by decide) (by decide) (by decide) (by decide)

/-- C10: in the suggestion engine's label-text lookup, a native label with
non-empty normalized text wins (the fallback is not consulted: the result is
that label's text); the aria-labelledby fallback is consulted exactly when no
native label qualifies (whitespace-only labels are skipped by the
normalization in the search predicate), and it looks the entire attribute
value up as one single id in the whole document; consequently a value listing
two or more whitespace-separated ids resolves no element when every id in the
document is a single token. -/
theorem getLabelTextFor_wholeValue_fallback (root e : Node) :
    (∀ l, isLabelable e = true →
      (labelsOf root e).find?
          (fun l2 => decide (defaultNormalize (textContent l2) ≠ "")) = some l →
      getLabelTextFor root e = some (textContent l)) ∧
    ((isLabelable e = false ∨
        (labelsOf root e).find?
          (fun l2 => decide (defaultNormalize (textContent l2) ≠ "")) = none) →
      ∀ alb, attr e "aria-labelledby" = some alb → alb ≠ "" →
      getLabelTextFor root e = (findElemById root alb).map textContent) ∧
    (∀ alb, 2 ≤ (splitWsTokens alb).length →
      (∀ n ∈ elementsUnder root, (splitWsTokens ((attr n "id").getD "")).length ≤ 1) →
      findElemById root alb = none) := by
  refine ⟨?_, ?_, ?_⟩
  · intro l hlab hfind
    simp only [ne_eq, decide_not] at hfind
    simp [getLabelTextFor, hlab, hfind]
  · intro hdisj alb halb halbne
    unfold getLabelTextFor
    cases hl : isLabelable e with
    | false => simp [halb, halbne]
    | true =>
      rcases hdisj with h | h
      · rw [hl] at h; cases h
      · simp only [ne_eq, decide_not] at h
        simp [h, halb, halbne]
  · intro alb htok hids
    cases hfe : findElemById root alb with
    | none => rfl
    | some n =>
      exfalso
      unfold findElemById at hfe
      have hmem : n ∈ (elementsUnder root).filter
          (fun n2 => decide (attr n2 "id" = some alb)) := by
        cases hl : (elementsUnder root).filter
            (fun n2 => decide (attr n2 "id" = some alb)) with
        | nil => rw [hl] at hfe; cases hfe
        | cons a t =>
          rw [hl] at hfe
          simp only [List.head?] at hfe
          injection hfe with hfe
          subst hfe
          exact List.mem_cons_self a t
      rw [List.mem_filter] at hmem
      obtain ⟨hmemEl, hid⟩ := hmem
      rw [decide_eq_true_eq] at hid
      have := hids n hmemEl
      rw [hid] at this
      simp only [Option.getD_some] at this
      omega

/-- Witness label for the element (associated via for/id) whose text is
whitespace only, hence skipped by the native-label search. -/
def lblW10 : Node := .elem "label" [("for", "c")] [.text "   "] 1

/-- Witness span carrying id a. -/
def spanAW10 : Node := .elem "span" [("id", "a")] [.text "A"] 2

/-- Witness labelable element whose aria-labelledby lists two ids. -/
def inpW10 : Node := .elem "input" [("id", "c"), ("aria-labelledby", "a b")] [] 3

/-- Witness span carrying id b. -/
def spanBW10 : Node := .elem "span" [("id", "b")] [.text "B"] 4

/-- Witness document for the whole-value fallback theorem. -/
def rootW10 : Node := .elem "html" [] [lblW10, spanAW10, inpW10, spanBW10] 0

theorem getLabelTextFor_wholeValue_fallback_witness :
    getLabelTextFor rootW10 inpW10 = none := by
  have h := getLabelTextFor_wholeValue_fallback rootW10 inpW10
  rw [h.2.1 (Or.inr (by decide)) "a b" (by decide) (by decide),
    h.2.2 "a b" (by decide) (by decide)]
  rfl

/-- C2: getAllByLabelText returns the resolved set unchanged when it is
non-empty; when it is empty it raises through the error reporter, with the
check-your-for/aria-labelledby message exactly when some label's text matched
the pattern, and the generic unable-to-find-a-label message otherwise. -/
theorem getAllByLabelText_error_cases (c : Node) (m : Matcher) (o : SelectorMatcherOptions) :
    (queryAllByLabelText c m o ≠ [] →
      getAllByLabelText c m o = .ok (queryAllByLabelText c m o)) ∧
    (queryAllByLabelText c m o = [] →
      queryAllLabelsByText c m o.toMatcherOptions ≠ [] →
      getAllByLabelText c m o = .error (msgNoControl (matcherText m))) ∧
    (queryAllByLabelText c m o = [] →
      queryAllLabelsByText c m o.toMatcherOptions = [] →
      getAllByLabelText c m o = .error (msgNoLabel (matcherText m))) := by
  refine ⟨?_, ?_, ?_⟩
  · intro h
    simp [getAllByLabelText, h]
  · intro h1 h2
    simp [getAllByLabelText, h1, h2]
  · intro h1 h2
    simp [getAllByLabelText, h1, h2]

/-- Witness container for the error-case theorem: an empty document. -/
def cW2 : Node := .elem "div" [] [] 0

theorem getAllByLabelText_error_cases_witness :
    getAllByLabelText cW2 (.str "x") {} = .error (msgNoLabel (matcherText (.str "x"))) :=
  (getAllByLabelText_error_cases cW2 (.str "x") {}).2.2 (by decide) (by decide)

/-- C3: the sequence returned by queryAllByLabelText contains no node more
than once (nodes reachable through several association mechanisms are
deduplicated), contains only actual nodes (unresolved references were dropped
by the null filter of the pipeline), and every returned node satisfies the
caller's selector constraint (default match-anything). -/
theorem queryAllByLabelText_invariants (c : Node) (m : Matcher) (o : SelectorMatcherOptions) :
    (queryAllByLabelText c m o).Nodup ∧
    ∀ n ∈ queryAllByLabelText c m o, selOf o n = true := by
  constructor
  · unfold queryAllByLabelText
    exact (nodup_jsSetDedup _).filter _
  · intro n hn
    unfold queryAllByLabelText at hn
    exact (List.mem_filter.mp hn).2

/-- Witness label (associated to the input via for/id) for the invariants
theorem. -/
def lblW3 : Node := .elem "label" [("for", "i")] [.text "L"] 1

/-- Witness input for the invariants theorem. -/
def inputW3 : Node := .elem "input" [("id", "i")] [] 2

/-- Witness container for the invariants theorem. -/
def cW3 : Node := .elem "div" [] [lblW3, inputW3] 0

theorem queryAllByLabelText_invariants_witness :
    selOf ({} : SelectorMatcherOptions) inputW3 = true :=
  (queryAllByLabelText_invariants cW3 (.str "L") {}).2 inputW3 (by decide)

/-- C4: aria-labelledby association in queryAllByLabelText is many-to-many
and whole-token: every element under the container whose whitespace-separated
aria-labelledby token list contains a matched label's (non-empty) id as a
whole token ends up in the result (subject only to the caller's selector),
while an element whose token list does not contain the id — even when the id
occurs as a substring of a longer token — is not selected by the
aria-labelledby mechanism. -/
theorem queryAllByLabelText_ariaLabelledby_tokens (c : Node) (m : Matcher)
    (o : SelectorMatcherOptions) (label n : Node) (i v : String) :
    (label ∈ matchedLabels c m o → attr label "id" = some i → i ≠ "" →
      n ∈ elementsUnder c → attr n "aria-labelledby" = some v → i ∈ splitWsTokens v →
      selOf o n = true → n ∈ queryAllByLabelText c m o) ∧
    (attr n "aria-labelledby" = some v → i ∉ splitWsTokens v →
      n ∉ qsaAriaLabelledby c i) := by
  constructor
  · intro hlab hid hine hnel halb htok hsel
    have hq : n ∈ qsaAriaLabelledby c i := by
      unfold qsaAriaLabelledby
      rw [List.mem_filter]
      refine ⟨hnel, ?_⟩
      rw [halb]
      simpa using htok
    have h1 : some n ∈ elementsForLabel c (selOf o) label := by
      unfold elementsForLabel
      simp only [List.append_assoc, List.mem_append]
      refine Or.inr (Or.inr (Or.inl ?_))
      rw [hid]
      show some n ∈ (if i = "" then [] else List.map some (qsaAriaLabelledby c i))
      rw [if_neg hine]
      exact List.mem_map_of_mem some hq
    have h2 : n ∈ labelledElements c m o := by
      unfold labelledElements
      refine List.mem_append.mpr (Or.inl ?_)
      rw [List.mem_filterMap]
      exact ⟨some n, List.mem_flatMap.mpr ⟨label, hlab, h1⟩, rfl⟩
    unfold queryAllByLabelText
    exact List.mem_filter.mpr
      ⟨mem_jsSetDedup.mpr (List.mem_append.mpr (Or.inl h2)), hsel⟩
  · intro halb htok hmem
    unfold qsaAriaLabelledby at hmem
    rw [List.mem_filter] at hmem
    obtain ⟨-, hp⟩ := hmem
    rw [halb] at hp
    exact htok (by simpa using hp)

/-- Witness label carrying id la, whose text matches the pattern. -/
def labelW4 : Node := .elem "label" [("id", "la")] [.text "L"] 1

/-- Witness element referencing la among two whole tokens. -/
def input1W4 : Node := .elem "input" [("aria-labelledby", "la other")] [] 2

/-- Witness element whose aria-labelledby holds la only as a substring of a
longer token. -/
def input2W4 : Node := .elem "input" [("aria-labelledby", "lax")] [] 3

/-- Witness container for the whole-token theorem. -/
def cW4 : Node := .elem "div" [] [labelW4, input1W4, input2W4] 0

theorem queryAllByLabelText_ariaLabelledby_tokens_witness :
    input1W4 ∈ queryAllByLabelText cW4 (.str "L") {} ∧
    input2W4 ∉ qsaAriaLabelledby cW4 "la" :=
  ⟨(queryAllByLabelText_ariaLabelledby_tokens cW4 (.str "L") {} labelW4 input1W4
      "la" "la other").1 (by decide) (by decide) (by decide) (by decide) (by decide)
      (by decide) (by decide),
    (queryAllByLabelText_ariaLabelledby_tokens cW4 (.str "L") {} labelW4 input2W4
      "la" "lax").2 (by decide) (by decide)⟩

/-- Scenario label whose own text is Email, with a nested textarea holding
the value hello. -/
def lblA5 : Node := .elem "label" [] [.text "Email", .elem "textarea" [] [.text "hello"] 2] 1

/-- Scenario container for the nested-textarea label. -/
def cA5 : Node := .elem "div" [] [lblA5] 0

/-- Scenario label whose entire text comes from a nested textarea value. -/
def lblB5 : Node := .elem "label" [] [.elem "textarea" [] [.text "Secret"] 2] 1

/-- Scenario container for the textarea-only label. -/
def cB5 : Node := .elem "div" [] [lblB5] 0

/-- Scenario label whose own text is Choose, with a nested select whose
option text is Opt. -/
def lblC5 : Node :=
  .elem "label" [] [.text "Choose", .elem "select" [] [.elem "option" [] [.text "Opt"] 3] 2] 1

/-- Scenario container for the nested-select label. -/
def cC5 : Node := .elem "div" [] [lblC5] 0

/-- C5: queryAllLabelsByText matches a label only against its textContent
with the text of nested textarea and select descendants removed: a label is
returned exactly when its stripped text matches, so a label whose own text
matches is returned despite nested textarea or select content, and a label
matching only because of that nested content is not. -/
theorem queryAllLabelsByText_strips_nested :
    (∀ (c : Node) (m : Matcher) (o : MatcherOptions) (l : Node),
      l ∈ queryAllLabelsByText c m o ↔
        (l ∈ elementsUnder c ∧ tagOf l = some "label" ∧
          matcherOf o.exact (some (labelTextToMatch l)) l m (normOf o) = true)) ∧
    queryAllLabelsByText cA5 (.str "Email") {} = [lblA5] ∧
    queryAllLabelsByText cB5 (.str "Secret") {} = [] ∧
    queryAllLabelsByText cC5 (.str "Choose") {} = [lblC5] := by
  refine ⟨?_, by decide, by decide, by decide⟩
  intro c m o l
  unfold queryAllLabelsByText elementsByTag
  rw [List.mem_filter, List.mem_filter]
  simp [and_assoc]

/-- The title element of the svg scenario. -/
def titleC7 : Node := .elem "title" [] [.text "Close"] 2

/-- The svg element of the svg scenario. -/
def svgC7 : Node := .elem "svg" [] [titleC7] 1

/-- The container of the svg scenario. -/
def containerC7 : Node := .elem "div" [] [svgC7] 0

/-- C7 counterexample: on the container holding the svg with a Close title
child, the exact title query returns the title element and the svg node is
not in the result, contradicting the claim that the svg node is returned. -/
theorem queryAllByTitle_svg_counterexample :
    queryAllByTitle containerC7 (.str "Close") {} = [titleC7] ∧
    svgC7 ∉ queryAllByTitle containerC7 (.str "Close") {} := by
  decide

/-- C7 amended: the exact title query for Close on the svg scenario returns
exactly the title element that sits inside the svg (selected by the
svg-child-title branch of the selector), not the svg node itself. -/
theorem queryAllByTitle_svg_title :
    titleC7 ∈ elementsUnder svgC7 ∧
    queryAllByTitle containerC7 (.str "Close") {} = [titleC7] := by
  decide

/-- The element of the aria-label normalization counterexample. -/
def nC8 : Node := .elem "input" [("aria-label", "hello")] [] 1

/-- The container of the aria-label normalization counterexample. -/
def cC8 : Node := .elem "div" [] [nC8] 0

/-- The options of the aria-label normalization counterexample: a caller
normalizer mapping every text to X. -/
def oC8 : SelectorMatcherOptions := { normalizer := some fun _ => "X" }

/-- A label carrying the same text hello, associated to an input, to compare
the mechanisms. -/
def lblC8 : Node := .elem "label" [("for", "z")] [.text "hello"] 1

/-- The input the comparison label controls. -/
def inpC8 : Node := .elem "input" [("id", "z")] [] 2

/-- The container of the comparison document. -/
def cC8b : Node := .elem "div" [] [lblC8, inpC8] 0

/-- C8 counterexample: under the caller's normalizer the aria-label value
hello matches the pattern X, and the identically-normalized label-node
mechanism does resolve its control, yet the query on the aria-label document
returns nothing — the caller's normalization options are not applied in the
aria-label mechanism. -/
theorem queryAllByLabelText_ariaLabel_normalizer_counterexample :
    matchesExact (some "hello") nC8 (.str "X") (normOf oC8.toMatcherOptions) = true ∧
    attr nC8 "aria-label" = some "hello" ∧
    nC8 ∈ elementsUnder cC8 ∧ selOf oC8 nC8 = true ∧
    queryAllByLabelText cC8 (.str "X") oC8 = [] ∧
    queryAllByLabelText cC8b (.str "X") oC8 = [inpC8] := by
  decide

/-- C8 amended: the aria-label mechanism of queryAllByLabelText receives only
the caller's exact flag; an element whose aria-label value matches the
pattern under the default normalizer (not the caller's normalizer) is
returned, subject to the caller's selector. -/
theorem queryAllByLabelText_ariaLabel_default_normalizer (c : Node) (m : Matcher)
    (o : SelectorMatcherOptions) (n : Node) (v : String) :
    n ∈ elementsUnder c → attr n "aria-label" = some v →
    matcherOf o.exact (some v) n m defaultNormalize = true →
    selOf o n = true → n ∈ queryAllByLabelText c m o := by
  intro hmem hal hmatch hsel
  have h1 : n ∈ queryAllByAttribute "aria-label" c m ⟨o.exact, none, none, none⟩ := by
    unfold queryAllByAttribute
    rw [List.mem_filter]
    refine ⟨List.mem_filter.mpr ⟨hmem, by rw [hal]; rfl⟩, ?_⟩
    rw [hal]
    exact hmatch
  have h2 : n ∈ labelledElements c m o := by
    unfold labelledElements
    exact List.mem_append.mpr (Or.inr h1)
  unfold queryAllByLabelText
  exact List.mem_filter.mpr
    ⟨mem_jsSetDedup.mpr (List.mem_append.mpr (Or.inl h2)), hsel⟩

/-- Witness element for the default-normalizer aria-label theorem. -/
def nW8 : Node := .elem "input" [("aria-label", "hi")] [] 1

/-- Witness container for the default-normalizer aria-label theorem. -/
def cW8 : Node := .elem "div" [] [nW8] 0

theorem queryAllByLabelText_ariaLabel_default_normalizer_witness :
    nW8 ∈ queryAllByLabelText cW8 (.str "hi") {} :=
  queryAllByLabelText_ariaLabel_default_normalizer cW8 (.str "hi") {} nW8 "hi"
    (by decide) (by decide) (by decide) (by decide)

/-- The earlier input of the ordering counterexample, controlled by the later
label. -/
def inputB9 : Node := .elem "input" [("id", "b")] [] 1

/-- The first matching label, controlling the later input. -/
def labelA9 : Node := .elem "label" [("for", "a")] [.text "T"] 2

/-- The second matching label, controlling the earlier input. -/
def labelB9 : Node := .elem "label" [("for", "b")] [.text "T"] 3

/-- The later input of the ordering counterexample, controlled by the first
label. -/
def inputA9 : Node := .elem "input" [("id", "a")] [] 4

/-- The container of the ordering counterexample. -/
def containerC9 : Node := .elem "div" [] [inputB9, labelA9, labelB9, inputA9] 0

/-- C9 counterexample: queryAllByLabelText returns the two inputs in
label-resolution order, which inverts the document pre-order of the
traversal — the result is not a subsequence of the traversal. -/
theorem queryAllByLabelText_order_counterexample :
    queryAllByLabelText containerC9 (.str "T") {} = [inputA9, inputB9] ∧
    (elementsUnder containerC9).indexOf inputB9 < (elementsUnder containerC9).indexOf inputA9 ∧
    ¬ (queryAllByLabelText containerC9 (.str "T") {}).Sublist (elementsUnder containerC9) := by
  decide

/-- C9 amended: queryAllByTitle returns its matches in document pre-order (a
subsequence of the traversal); queryAllByLabelText returns nodes in
label-resolution order, which can deviate from document order, as on the
ordering counterexample document. -/
theorem queryAllByTitle_document_order (c : Node) (m : Matcher) (o : MatcherOptions) :
    (queryAllByTitle c m o).Sublist (elementsUnder c) ∧
    queryAllByLabelText containerC9 (.str "T") ({} : SelectorMatcherOptions) =
      [inputA9, inputB9] := by
  constructor
  · unfold queryAllByTitle qsaTitleSel elementsUnder
    exact (List.filter_sublist _).trans ((List.filter_sublist _).map _)
  · decide
